import Mathlib

/-!
# Verification of the drive_c backend weekly-activity scheduler

Shallow embedding in Lean 4 of the scheduler core of the repository:

* `src/api/schedule_routes.py` — time parsing (`_parse_time_hhmm`,
  `_time_to_str`), weekday normalization (`_norm_day`), activity payload
  validation (`_validate_activity_payload`), instance expansion
  (`_expand_instances`), and the `create_activity`,
  `add_activities_from_json` and `update_activity_series` routes modelled
  as transitions on an explicit database state.
* `src/services/ai_postprocess.py` — `expand_dates_to_week_schema`,
  `map_participants_to_ids`, `ensure_required_fields`, `normalize_and_align`.

Machine dates are embedded as Rata Die ordinals (day 1 = 0001-01-01 of the
proleptic Gregorian calendar, which is a Monday); conversions follow the
standard civil-calendar algorithms, matching Python's `datetime.date`,
`date.isocalendar` and `date.fromisocalendar` on the in-range inputs the
code can produce (years 1..9999).
-/

namespace DriveC

/-! ## Calendar arithmetic (model of Python `datetime.date`) -/

def isLeap (y : Int) : Bool :=
  y % 4 == 0 && (y % 100 != 0 || y % 400 == 0)

def daysInMonth (y m : Int) : Int :=
  if m = 2 then (if isLeap y then 29 else 28)
  else if m = 4 ∨ m = 6 ∨ m = 9 ∨ m = 11 then 30
  else 31

/-- Rata Die ordinal of a civil date (proleptic Gregorian); day 1 is
0001-01-01. Standard "days from civil" integer algorithm. -/
def rdOfDate (y m d : Int) : Int :=
  let y' := if m ≤ 2 then y - 1 else y
  let era := y' / 400
  let yoe := y' - era * 400
  let mp := (m + 9) % 12
  let doy := (153 * mp + 2) / 5 + d - 1
  let doe := yoe * 365 + yoe / 4 - yoe / 100 + doy
  era * 146097 + doe - 305

/-- Civil date `(year, month, day)` of a Rata Die ordinal: inverse of
`rdOfDate` (standard "civil from days" integer algorithm). -/
def dateOfRd (rd : Int) : Int × Int × Int :=
  let z := rd + 305
  let era := z / 146097
  let doe := z % 146097
  let yoe := (doe - doe / 1460 + doe / 36524 - doe / 146096) / 365
  let y := yoe + era * 400
  let doy := doe - (365 * yoe + yoe / 4 - yoe / 100)
  let mp := (5 * doy + 2) / 153
  let d := doy - (153 * mp + 2) / 5 + 1
  let m := if mp < 10 then mp + 3 else mp - 9
  (if m ≤ 2 then y + 1 else y, m, d)

/-- ISO weekday of a Rata Die ordinal: 1 = Monday .. 7 = Sunday
(`date.isoweekday`). -/
def isoWeekday (rd : Int) : Int :=
  (rd - 1) % 7 + 1

/-- Gregorian year of an ordinal. -/
def yearOfRd (rd : Int) : Int :=
  (dateOfRd rd).1

/-- `(isoYear, isoWeek)` of an ordinal, per ISO-8601 week numbering
(`date.isocalendar`): the ISO year is the calendar year of the Thursday of
the date's week, and the week number counts Thursdays since that year's
January 1st. -/
def isoWeekYear (rd : Int) : Int × Int :=
  let thu := rd - isoWeekday rd + 4
  let y := yearOfRd thu
  (y, (thu - rdOfDate y 1 1) / 7 + 1)

/-- Ordinal of the Monday of ISO week 1 of year `y` (the week containing
January 4th). -/
def week1Monday (y : Int) : Int :=
  let jan4 := rdOfDate y 1 4
  jan4 - (isoWeekday jan4 - 1)

/-- Number of ISO weeks in ISO year `y` (52, or 53 for "long" years). -/
def isoWeeksInYear (y : Int) : Int :=
  let wd := isoWeekday (rdOfDate y 1 1)
  if wd = 4 ∨ (isLeap y && wd = 3) then 53 else 52

/-- Model of Python `date.fromisocalendar(y, w, d)`: validates the year,
week and weekday ranges (raising `ValueError` otherwise) and returns the
ordinal of weekday `d` of ISO week `w` of ISO year `y`. -/
def fromIsoCalendar (y w d : Int) : Except String Int :=
  if ¬ (1 ≤ y ∧ y ≤ 9999) then .error "Year is out of range"
  else if ¬ (1 ≤ w ∧ w ≤ isoWeeksInYear y) then .error "Invalid week"
  else if ¬ (1 ≤ d ∧ d ≤ 7) then .error "Invalid weekday"
  else .ok (week1Monday y + (w - 1) * 7 + (d - 1))

/-! ## Python string primitives

Models of the Python `str`/`int` builtins used by the scheduler, on the
ASCII inputs the code manipulates (Python's Unicode-aware `strip`,
`lower`, `isdigit` and `int` coincide with these on ASCII payload data;
the Swedish day names only ever occur with their non-ASCII letters
already lowercase, where `lower` is also the identity on them). -/

/-- Python `str.strip()` (whitespace at both ends). -/
def pyStrip (s : String) : String :=
  ⟨(s.data.dropWhile Char.isWhitespace).reverse.dropWhile Char.isWhitespace
    |>.reverse⟩

/-- Python `str.lower()` (ASCII model). -/
def pyLower (s : String) : String :=
  ⟨s.data.map Char.toLower⟩

/-- Numeric value of a digit list (most significant first). -/
def digitsVal (cs : List Char) : Nat :=
  cs.foldl (fun acc c => acc * 10 + (c.toNat - 48)) 0

/-- Well-formed body of a Python integer literal: digits possibly
separated by single underscores, starting and ending with a digit. -/
def pyIntBodyOk : List Char → Bool
  | [] => false
  | [c] => c.isDigit
  | c :: '_' :: rest => c.isDigit && pyIntBodyOk rest
  | c :: rest => c.isDigit && pyIntBodyOk rest

/-- Model of Python `int(s)`: strips whitespace, takes an optional sign,
then digits with optional single-underscore separators; `none` models the
`ValueError` raised on anything else. -/
def pyInt? (s : String) : Option Int :=
  let t := (pyStrip s).data
  let (sign, body) : Int × List Char :=
    match t with
    | '+' :: r => (1, r)
    | '-' :: r => (-1, r)
    | r => (1, r)
  if pyIntBodyOk body then
    some (sign * (digitsVal (body.filter (· ≠ '_')) : Int))
  else
    none

/-- Splitting a character list at every occurrence of `sep`: model of
Python `str.split(sep)` for a one-character separator. -/
def splitChar (sep : Char) : List Char → List (List Char)
  | [] => [[]]
  | c :: rest =>
    match splitChar sep rest with
    | [] => [[]]
    | g :: gs => if c = sep then [] :: g :: gs else (c :: g) :: gs

/-! ## Time utilities (`schedule_routes._parse_time_hhmm`, `_time_to_str`) -/

/-- Python `f"{n:02d}"` for the values reachable here (`n > -10`). -/
def pyFmt02d (n : Int) : String :=
  if 0 ≤ n ∧ n < 10 then "0" ++ toString n else toString n

/-- `_parse_time_hhmm`: length must be 4 or 5, exactly one `:`, both parts
Python-int-parseable, hour in [0,23] and minute in [0,59]. Returns the
(hour, minute) pair carried by the `datetime(2000, 1, 1, hour, minute)`
the source returns; `.error` models the raised `ValueError`. -/
def parseTimeHhmm (s : String) : Except String (Int × Int) :=
  if s.length ≠ 4 ∧ s.length ≠ 5 then .error "Time must be 'HH:MM'"
  else
    match splitChar ':' s.data with
    | [a, b] =>
      match pyInt? ⟨a⟩, pyInt? ⟨b⟩ with
      | some hour, some minute =>
        if 0 ≤ hour ∧ hour ≤ 23 ∧ 0 ≤ minute ∧ minute ≤ 59 then
          .ok (hour, minute)
        else
          .error "Time must be 'HH:MM' in 24h range"
      | _, _ => .error "invalid literal for int() with base 10"
    | _ => .error "Time must be 'HH:MM'"

/-- `_time_to_str`: format the hour/minute pair back as `HH:MM`. -/
def timeToStr (t : Int × Int) : String :=
  pyFmt02d t.1 ++ ":" ++ pyFmt02d t.2

/-! ## Weekday normalization (`schedule_routes._norm_day` and tables) -/

/-- `SV_WEEKDAYS`: canonical Swedish weekday name for an ISO index. -/
def svWeekdays (n : Int) : String :=
  if n = 1 then "Måndag"
  else if n = 2 then "Tisdag"
  else if n = 3 then "Onsdag"
  else if n = 4 then "Torsdag"
  else if n = 5 then "Fredag"
  else if n = 6 then "Lördag"
  else "Söndag"

/-- `SV_TO_NUM`: lowercased canonical name back to the ISO index. -/
def svToNum (s : String) : Option Int :=
  if s = "måndag" then some 1
  else if s = "tisdag" then some 2
  else if s = "onsdag" then some 3
  else if s = "torsdag" then some 4
  else if s = "fredag" then some 5
  else if s = "lördag" then some 6
  else if s = "söndag" then some 7
  else none

/-- A dynamically-typed `day` payload entry: the source accepts ints and
strings (anything else falls through to the final `ValueError`). -/
inductive DayVal
  | int (n : Int)
  | str (s : String)
deriving DecidableEq, Repr

/-- `_norm_day`: an int must be 1..7; a string is stripped and lowercased,
then accepted as an in-range digit string or as a lowercased Swedish
weekday name; anything else raises `ValueError`. -/
def normDay : DayVal → Except String String
  | .int n =>
    if 1 ≤ n ∧ n ≤ 7 then .ok (svWeekdays n)
    else .error "day int must be 1..7 (ISO, Måndag=1)"
  | .str s =>
    let t := pyLower (pyStrip s)
    if t.data ≠ [] ∧ t.data.all Char.isDigit ∧
        1 ≤ digitsVal t.data ∧ digitsVal t.data ≤ 7 then
      .ok (svWeekdays (digitsVal t.data))
    else
      match svToNum t with
      | some n => .ok (svWeekdays n)
      | none => .error "day must be a Swedish weekday name or 1..7"

/-! ## Payload validation (`schedule_routes._validate_activity_payload`) -/

/-- Discriminated Python exception kinds raised by the pipeline. -/
inductive PyErr
  | valueError (msg : String)
  | typeError (msg : String)
  | keyError (msg : String)
deriving DecidableEq, Repr

/-- The dynamic value stored under `recurringEndDate` in the normalized
payload dict: the validator stores a parsed `datetime.date`, while the
expander expects the raw string, so both shapes occur. -/
inductive RecEnd
  | str (s : String)
  | date (rd : Int)
deriving DecidableEq, Repr

/-- A raw activity payload as submitted over JSON, restricted to the
field types the claims exercise (absent fields are `none`; `week`/`year`
are integer-valued as in every claim's payload). -/
structure RawActivity where
  name : Option String := none
  startTime : Option String := none
  endTime : Option String := none
  participants : Option (List String) := none
  seriesId : Option String := none
  icon : Option String := none
  location : Option String := none
  notes : Option String := none
  color : Option String := none
  day : Option DayVal := none
  days : Option (List DayVal) := none
  week : Option Int := none
  year : Option Int := none
  recurringEndDate : Option String := none
deriving DecidableEq, Repr

/-- The validator's normalized output (`base_payload`). -/
structure ValidatedActivity where
  name : String
  icon : Option String := none
  startTime : String
  endTime : String
  participants : List String := []
  location : Option String := none
  notes : Option String := none
  color : Option String := none
  seriesId : String
  days : List String
  week : Int
  year : Int
  recurringEndDate : Option RecEnd := none
deriving DecidableEq, Repr

/-- Sequencing a fallible function over a list, stopping at the first
raised exception (the shape of every `for`-loop-with-`raise` below). -/
def mapExcept {α β ε : Type} (f : α → Except ε β) : List α → Except ε (List β)
  | [] => .ok []
  | a :: l => do
    let b ← f a
    let bs ← mapExcept f l
    .ok (b :: bs)

/-- `_require_int` on an (optional) integer field. -/
def requireInt (name : String) (v : Option Int) : Except PyErr Int :=
  match v with
  | none => .error (.valueError (name ++ " is required and must be an integer"))
  | some n => .ok n

/-- `_parse_time_hhmm` applied to an optional payload field; a missing
field fails the `isinstance(value, str)` check with the same message. -/
def parseTimeField (v : Option String) : Except PyErr (Int × Int) :=
  match v with
  | none => .error (.valueError "Time must be 'HH:MM'")
  | some s => (parseTimeHhmm s).mapError .valueError

/-- Minutes since midnight of a parsed time; `datetime` comparison on
`datetime(2000, 1, 1, h, m)` values is comparison of these. -/
def toMinutes (t : Int × Int) : Int :=
  t.1 * 60 + t.2

/-- `_norm_day` on a possibly-`None` list entry (`None` is neither an int
nor a str, so it falls to the final `ValueError`). -/
def normDayOpt : Option DayVal → Except PyErr String
  | none => .error (.valueError "day must be a Swedish weekday name or 1..7")
  | some d => (normDay d).mapError .valueError

/-- `SV_TO_NUM[day.lower()]` with the `KeyError` Python would raise on a
non-canonical name. -/
def svToNumE (day : String) : Except PyErr Int :=
  match svToNum (pyLower day) with
  | some n => .ok n
  | none => .error (.keyError day)

/-- Model of `datetime.strptime(s, "%Y-%m-%d").date()`: exactly four year
digits, one or two month and day digits separated by `-`, forming a valid
calendar date (year ≥ 1). Returns the ordinal. -/
def parseYMD (s : String) : Option Int :=
  match splitChar '-' s.data with
  | [ys, ms, ds] =>
    if ys.length = 4 ∧ ys.all Char.isDigit ∧
        1 ≤ ms.length ∧ ms.length ≤ 2 ∧ ms.all Char.isDigit ∧
        1 ≤ ds.length ∧ ds.length ≤ 2 ∧ ds.all Char.isDigit then
      let y : Int := digitsVal ys
      let m : Int := digitsVal ms
      let d : Int := digitsVal ds
      if 1 ≤ y ∧ 1 ≤ m ∧ m ≤ 12 ∧ 1 ≤ d ∧ d ≤ daysInMonth y m then
        some (rdOfDate y m d)
      else none
    else none
  | _ => none

/-- `_validate_activity_payload`. `fresh` stands for the
`str(uuid.uuid4())` drawn when no (truthy) `seriesId` is supplied. -/
def validateActivityPayload (raw : RawActivity) (fresh : String) :
    Except PyErr ValidatedActivity := do
  let name ←
    match raw.name with
    | some n => if pyStrip n ≠ "" then pure n else .error (.valueError "name is required")
    | none => .error (.valueError "name is required")
  let startT ← parseTimeField raw.startTime
  let endT ← parseTimeField raw.endTime
  if toMinutes startT ≥ toMinutes endT then
    .error (.valueError "startTime must be earlier than endTime")
  let participants := raw.participants.getD []
  let seriesId :=
    match raw.seriesId with
    | some s => if s = "" then fresh else s
    | none => fresh
  let daysRaw : List (Option DayVal) :=
    match raw.days with
    | some ds => ds.map some
    | none => [raw.day]
  if daysRaw = [] ∨ daysRaw.head? = some none then
    .error (.valueError "Provide either 'date'/'dates' or 'days'/'day'")
  let days ← mapExcept normDayOpt daysRaw
  let week ← requireInt "week" raw.week
  let year ← requireInt "year" raw.year
  let ords ← mapExcept (fun day => do
    let n ← svToNumE day
    fromIsoCalendar year week n |>.mapError .valueError) days
  let startDate ←
    match ords.min? with
    | some d => pure d
    | none => .error (.valueError "min() arg is an empty sequence")
  let base : ValidatedActivity :=
    { name := pyStrip name
      icon := raw.icon
      startTime := timeToStr startT
      endTime := timeToStr endT
      participants := participants
      location := raw.location
      notes := raw.notes
      color := raw.color
      seriesId := seriesId
      days := days
      week := week
      year := year }
  match raw.recurringEndDate with
  | none => pure base
  | some s =>
    match parseYMD s with
    | none => .error (.valueError "recurringEndDate must be 'YYYY-MM-DD'")
    | some endRd =>
      if endRd < startDate then
        .error (.valueError "recurringEndDate cannot be earlier than start date")
      else
        pure { base with recurringEndDate := some (.date endRd) }

/-! ## Instance expansion (`schedule_routes._expand_instances`) -/

/-- A concrete per-day instance descriptor emitted by the expander. -/
structure Inst where
  name : String
  icon : Option String := none
  startTime : String
  endTime : String
  participants : List String := []
  location : Option String := none
  notes : Option String := none
  color : Option String := none
  seriesId : String
  day : String
  week : Int
  year : Int
deriving DecidableEq, Repr

/-- The `{**base, "day": d, "week": w, "year": y}` merge. -/
def mkInst (v : ValidatedActivity) (day : String) (week year : Int) : Inst :=
  { name := v.name
    icon := v.icon
    startTime := v.startTime
    endTime := v.endTime
    participants := v.participants
    location := v.location
    notes := v.notes
    color := v.color
    seriesId := v.seriesId
    day := day
    week := week
    year := year }

/-- Python truthiness of the stored `recurringEndDate` value
(`if end_str:`): absent and the empty string are falsy. -/
def recEndTruthy : Option RecEnd → Bool
  | none => false
  | some (.str s) => s ≠ ""
  | some (.date _) => true

/-- Body of the inner `for d in v["days"]` loop: resolve the weekday
index, skip dates past the end date, otherwise emit the descriptor with
the ISO week/year recomputed for the concrete date. -/
def instForDay (v : ValidatedActivity) (endRd monday : Int) (d : String) :
    Except PyErr (Option Inst) := do
  let n ← svToNumE d
  let instDate := monday + n - 1
  if instDate > endRd then
    pure none
  else
    let iso := isoWeekYear instDate
    pure (some (mkInst v d iso.2 iso.1))

/-- One week of the `while current_monday <= end_date` loop, recursing
on a fuel bound (structural, so the kernel can evaluate it; `expandRec`
supplies enough fuel for the loop to reach its exit condition, so the
fuel-exhausted branch is unreachable). -/
def expandRecGo (v : ValidatedActivity) (endRd : Int) :
    Nat → Int → Except PyErr (List Inst)
  | 0, _ => .ok []
  | fuel + 1, monday =>
    if monday > endRd then .ok []
    else do
      let row ← mapExcept (instForDay v endRd monday) v.days
      let rest ← expandRecGo v endRd fuel (monday + 7)
      pure (row.reduceOption ++ rest)

/-- The `while current_monday <= end_date` loop: the iteration count is
bounded by `(endRd + 7 - monday) / 7`, so this fuel always suffices. -/
def expandRec (v : ValidatedActivity) (endRd monday : Int) :
    Except PyErr (List Inst) :=
  expandRecGo v endRd (endRd + 7 - monday).toNat monday

/-- `_expand_instances`: recurring branch when the stored
`recurringEndDate` is truthy (note it re-parses the value with
`strptime`, which raises `TypeError` on the `datetime.date` the validator
stores); otherwise one instance per day at the payload's week/year. -/
def expandInstances (v : ValidatedActivity) : Except PyErr (List Inst) :=
  if recEndTruthy v.recurringEndDate then do
    let startMonday ← fromIsoCalendar v.year v.week 1 |>.mapError .valueError
    let endRd ←
      match v.recurringEndDate with
      | some (.str s) =>
        match parseYMD s with
        | some rd => pure rd
        | none => Except.error (.valueError "recurringEndDate must be YYYY-MM-DD")
      | some (.date _) =>
        Except.error (.typeError "strptime() argument 1 must be str, not datetime.date")
      | none => Except.error (.typeError "unreachable")
    expandRec v endRd startMonday
  else
    .ok (v.days.map (fun d => mkInst v d v.week v.year))

/-! ## Database state and the activity routes

The relational store of `models/schedule_models.py` as an explicit value:
family members and activity rows, with the `activity_participants`
association held as the list of member ids on each activity. Routes
become functions from a state and a request to a response and a new
state; `db.session.commit` is the returned state, and an error response
before commit leaves the state unchanged (rollback / nothing flushed). -/

/-- A `FamilyMember` row. -/
structure Member where
  id : String
  userId : String
  name : String
  color : String := ""
  icon : String := ""
deriving DecidableEq, Repr

/-- An `Activity` row together with its participant associations. -/
structure StoredActivity where
  id : String
  userId : String
  seriesId : String
  name : String
  icon : Option String := none
  day : String
  week : Int
  year : Int
  startTime : String
  endTime : String
  location : Option String := none
  notes : Option String := none
  color : Option String := none
  participants : List String := []
deriving DecidableEq, Repr

/-- The datastore. -/
structure Db where
  members : List Member := []
  activities : List StoredActivity := []
deriving DecidableEq, Repr

/-- Outcome of a request: a success response, an `error_response`, or an
unhandled Python exception (surfacing as HTTP 500 from the framework). -/
inductive RouteResult
  | ok (code : Nat)
  | err (msg : String) (code : Nat)
  | exn (e : PyErr)
deriving DecidableEq, Repr

def pyErrMsg : PyErr → String
  | .valueError m => m
  | .typeError m => m
  | .keyError m => m

/-- Building the `Activity` row for one expanded instance in
`create_activity` / `add_activities_from_json`: note the participant
lookup `FamilyMember.query.filter(FamilyMember.id.in_(participant_ids))`
is NOT filtered by `user_id`, so it resolves against every user's
members (in table order). -/
def instToStored (userId actId : String) (members : List Member)
    (inst : Inst) : StoredActivity :=
  { id := actId
    userId := userId
    seriesId := inst.seriesId
    name := inst.name
    icon := inst.icon
    day := inst.day
    week := inst.week
    year := inst.year
    startTime := inst.startTime
    endTime := inst.endTime
    location := inst.location
    notes := inst.notes
    color := inst.color
    participants :=
      (members.filter (fun m => inst.participants.contains m.id)).map (·.id) }

/-- `POST /activities` (`create_activity`): validate, expand, then insert
every instance and commit. Only `ValueError` is caught (400); any other
exception escapes uncaught. `fresh` is the generated series id,
`freshIds i` the id generated for the `i`-th inserted activity. -/
def createActivity (st : Db) (userId : String) (raw : RawActivity)
    (fresh : String) (freshIds : Nat → String) : RouteResult × Db :=
  match (validateActivityPayload raw fresh).bind expandInstances with
  | .error (.valueError m) => (.err m 400, st)
  | .error e => (.exn e, st)
  | .ok insts =>
    let newActs := insts.enum.map
      (fun p => instToStored userId (freshIds p.1) st.members p.2)
    (.ok 201, { st with activities := st.activities ++ newActs })

/-- The validation/expansion loop of `add_activities_from_json`: every
activity of the batch is validated and expanded into `all_instances`
before anything is written. -/
def collectInstances (raws : List RawActivity) (freshSeries : Nat → String) :
    Except PyErr (List Inst) :=
  (mapExcept
    (fun p => (validateActivityPayload p.2 (freshSeries p.1)).bind expandInstances)
    raws.enum).map List.flatten

/-- `POST /add-activities` (`add_activities_from_json`): reject an empty
batch; validate and expand every activity; then insert all instances and
commit. `ValueError` → 400, any other exception → rollback and a 500
`error_response`; both before any commit, so the state is unchanged. -/
def addActivitiesFromJson (st : Db) (userId : String)
    (raws : List RawActivity) (freshSeries : Nat → String)
    (freshIds : Nat → String) : RouteResult × Db :=
  if raws = [] then (.err "Provide a non-empty array of activities" 400, st)
  else
    match collectInstances raws freshSeries with
    | .error (.valueError m) => (.err m 400, st)
    | .error _ => (.err "Failed to add activities" 500, st)
    | .ok insts =>
      let newActs := insts.enum.map
        (fun p => instToStored userId (freshIds p.1) st.members p.2)
      (.ok 201, { st with activities := st.activities ++ newActs })

/-- A `PUT /activities/series/<id>` request body: `none` = key absent.
Values for the columns that are nullable in the schema are in turn
optional. `day`, `week` and `year` may be supplied but are not in the
route's `allowed` list, so carrying them here records their presence
only. -/
structure SeriesUpdate where
  name : Option String := none
  icon : Option (Option String) := none
  participants : Option (List String) := none
  startTime : Option String := none
  endTime : Option String := none
  location : Option (Option String) := none
  notes : Option (Option String) := none
  color : Option (Option String) := none
  day : Option DayVal := none
  week : Option Int := none
  year : Option Int := none
deriving DecidableEq, Repr

/-- The `startTime` step of the `update_activity_series` loop
(`a.start_time = _time_to_str(_parse_time_hhmm(value))`). -/
def applyStart (u : SeriesUpdate) (a : StoredActivity) :
    Except PyErr StoredActivity :=
  match u.startTime with
  | none => .ok a
  | some s => do
    let t ← (parseTimeHhmm s).mapError PyErr.valueError
    .ok { a with startTime := timeToStr t }

/-- The `endTime` step. -/
def applyEnd (u : SeriesUpdate) (a : StoredActivity) :
    Except PyErr StoredActivity :=
  match u.endTime with
  | none => .ok a
  | some s => do
    let t ← (parseTimeHhmm s).mapError PyErr.valueError
    .ok { a with endTime := timeToStr t }

/-- The `participants` step: whole-set replacement, checking ids against
the requesting user's members only, keeping request order. -/
def applyParticipants (members : List Member) (userId : String)
    (u : SeriesUpdate) (a : StoredActivity) : StoredActivity :=
  match u.participants with
  | none => a
  | some ps =>
    { a with participants :=
        ps.filter (fun pid =>
          members.any (fun m => m.userId = userId ∧ m.id = pid)) }

/-- The `name` step (`str(value).strip() or a.name`). -/
def applyName (u : SeriesUpdate) (a : StoredActivity) : StoredActivity :=
  match u.name with
  | none => a
  | some v => { a with name := if pyStrip v = "" then a.name else pyStrip v }

def applyIcon (u : SeriesUpdate) (a : StoredActivity) : StoredActivity :=
  match u.icon with | none => a | some v => { a with icon := v }

def applyLocation (u : SeriesUpdate) (a : StoredActivity) : StoredActivity :=
  match u.location with | none => a | some v => { a with location := v }

def applyNotes (u : SeriesUpdate) (a : StoredActivity) : StoredActivity :=
  match u.notes with | none => a | some v => { a with notes := v }

def applyColor (u : SeriesUpdate) (a : StoredActivity) : StoredActivity :=
  match u.color with | none => a | some v => { a with color := v }

/-- The per-activity body of the `update_activity_series` loop over the
allowed keys (`day`/`week`/`year` are skipped by `key not in allowed`).
The fields touched are pairwise distinct attributes, so the dict
iteration order of the source does not affect the result; the steps are
applied in the `allowed` list's order. -/
def applySeriesUpdate (members : List Member) (userId : String)
    (u : SeriesUpdate) (a : StoredActivity) : Except PyErr StoredActivity := do
  let a ← applyStart u a
  let a ← applyEnd u a
  .ok (applyColor u (applyNotes u (applyLocation u (applyIcon u
    (applyName u (applyParticipants members userId u a))))))

/-- Whether a stored activity belongs to the series being updated. -/
def inSeries (userId seriesId : String) (a : StoredActivity) : Bool :=
  a.seriesId = seriesId ∧ a.userId = userId

/-- `PUT /activities/series/<series_id>` (`update_activity_series`):
404 when the user has no activities in the series; on a `ValueError` /
`TypeError` an `error_response` with nothing committed; otherwise all
series members are updated and committed. -/
def updateActivitySeries (st : Db) (userId seriesId : String)
    (u : SeriesUpdate) : RouteResult × Db :=
  let acts := st.activities.filter (inSeries userId seriesId)
  if acts = [] then (.err "No activities for series" 404, st)
  else
    match mapExcept (applySeriesUpdate st.members userId u) acts with
    | .error e => (.err (pyErrMsg e) 400, st)
    | .ok _ =>
      (.ok 200,
        { st with activities := st.activities.map (fun a =>
            if inSeries userId seriesId a then
              (applySeriesUpdate st.members userId u a).toOption.getD a
            else a) })

/-! ## AI post-processing (`services/ai_postprocess.py`) -/

/-- `SWEDISH_DAYS`. -/
def swedishDays : List String :=
  ["Måndag", "Tisdag", "Onsdag", "Torsdag", "Fredag", "Lördag", "Söndag"]

/-- `_DAY_NORMALIZATION` lookup (keys are already lowercase). -/
def dayNormalization (s : String) : Option String :=
  if s = "mandag" ∨ s = "måndag" ∨ s = "mån" ∨ s = "monday" then some "Måndag"
  else if s = "tisdag" ∨ s = "tis" ∨ s = "tuesday" then some "Tisdag"
  else if s = "onsdag" ∨ s = "ons" ∨ s = "wednesday" then some "Onsdag"
  else if s = "torsdag" ∨ s = "tor" ∨ s = "tors" ∨ s = "thursday" then some "Torsdag"
  else if s = "fredag" ∨ s = "fre" ∨ s = "fred" ∨ s = "friday" then some "Fredag"
  else if s = "lordag" ∨ s = "lördag" ∨ s = "lör" ∨ s = "lörs" ∨ s = "saturday" then some "Lördag"
  else if s = "sondag" ∨ s = "söndag" ∨ s = "sön" ∨ s = "sunday" then some "Söndag"
  else none

/-- Python `str.capitalize()` (ASCII model). -/
def pyCapitalize (s : String) : String :=
  match s.data with
  | [] => ""
  | c :: rest => ⟨Char.toUpper c :: rest.map Char.toLower⟩

/-- `_normalize_day_label`. -/
def normalizeDayLabel (day : String) : Option String :=
  let stripped := pyStrip day
  if stripped = "" then none
  else
    match dayNormalization (pyLower stripped) with
    | some n => some n
    | none =>
      let capitalized := pyCapitalize stripped
      if swedishDays.contains capitalized then some capitalized else none

/-- The dynamic `days` entry of an AI item: the source treats a list and
a bare string differently. -/
inductive DaysField
  | list (ds : List String)
  | str (s : String)
deriving DecidableEq, Repr

/-- A dynamic int-or-string scalar (for `week` / `year`). -/
inductive PyScalar
  | int (n : Int)
  | str (s : String)
deriving DecidableEq, Repr

/-- `_coerce_int` (the claims never pass floats or other types). -/
def coerceInt : Option PyScalar → Option Int
  | none => none
  | some (.int n) => some n
  | some (.str s) => if s = "" then none else pyInt? s

/-- An AI-produced activity item, restricted to the keys the pipeline
reads (absent keys are `none`). -/
structure AIItem where
  name : Option String := none
  startTime : Option String := none
  endTime : Option String := none
  participants : Option (List String) := none
  date : Option String := none
  dates : Option (List String) := none
  day : Option String := none
  days : Option DaysField := none
  week : Option PyScalar := none
  year : Option PyScalar := none
  icon : Option String := none
  location : Option String := none
  notes : Option String := none
  color : Option String := none
deriving DecidableEq, Repr

/-- Model of `_parse_date` on string input: `dateutil.parser.isoparse`
on the zero-padded `YYYY-MM-DD` dates the pipeline's callers produce;
anything else is treated as unparseable (`ValueError`). -/
def parseIsoDate (s : String) : Option Int :=
  match splitChar '-' s.data with
  | [ys, ms, ds] =>
    if ys.length = 4 ∧ ys.all Char.isDigit ∧
        ms.length = 2 ∧ ms.all Char.isDigit ∧
        ds.length = 2 ∧ ds.all Char.isDigit then
      let y : Int := digitsVal ys
      let m : Int := digitsVal ms
      let d : Int := digitsVal ds
      if 1 ≤ y ∧ 1 ≤ m ∧ m ≤ 12 ∧ 1 ≤ d ∧ d ≤ daysInMonth y m then
        some (rdOfDate y m d)
      else none
    else none
  | _ => none

/-- `_date_components`: `(day name, iso week, iso year)` of a date. -/
def dateComponents (rd : Int) : String × Int × Int :=
  let iso := isoWeekYear rd
  (svWeekdays (isoWeekday rd), iso.2, iso.1)

/-- Insertion into the `grouped` dict of `expand_dates_to_week_schema`:
groups keep first-appearance order, each group's day list keeps first
appearance and drops duplicates. -/
def groupInsert (key : Int × Int) (dayName : String) :
    List ((Int × Int) × List String) → List ((Int × Int) × List String)
  | [] => [(key, [dayName])]
  | (k, ds) :: rest =>
    if k = key then
      (k, if ds.contains dayName then ds else ds ++ [dayName]) :: rest
    else
      (k, ds) :: groupInsert key dayName rest

/-- The `grouped` dict built from a `dates` list (unparseable entries
skipped). -/
def groupDates (dates : List String) : List ((Int × Int) × List String) :=
  dates.foldl
    (fun acc raw =>
      match parseIsoDate raw with
      | none => acc
      | some rd =>
        let c := dateComponents rd
        groupInsert (c.2.1, c.2.2) c.1 acc)
    []

/-- The `base` dict of an item: the six temporal keys popped. -/
def aiBase (item : AIItem) : AIItem :=
  { item with date := none, dates := none, day := none, days := none,
              week := none, year := none }

/-- Candidate day list of the `days`/`day` fallback branch. -/
def candidateDays (item : AIItem) : List String :=
  let fromDays :=
    match item.days with
    | some (.list ds) => ds.filterMap normalizeDayLabel
    | some (.str s) => (normalizeDayLabel s).toList
    | none => []
  match item.day with
  | some d =>
    if d ≠ "" then
      match normalizeDayLabel d with
      | some n => if fromDays.contains n then fromDays else fromDays ++ [n]
      | none => fromDays
    else fromDays
  | none => fromDays

/-- `expand_dates_to_week_schema` on one item (returning the entries it
appends to `results`). -/
def expandDatesItem (defaultWeek defaultYear : Option Int) (item : AIItem) :
    List AIItem :=
  let base := aiBase item
  match item.date with
  | some ds =>
    if ds ≠ "" then
      match parseIsoDate ds with
      | none => []
      | some rd =>
        let c := dateComponents rd
        [{ base with days := some (.list [c.1]), week := some (.int c.2.1),
                     year := some (.int c.2.2) }]
    else expandDatesNoDate defaultWeek defaultYear item base
  | none => expandDatesNoDate defaultWeek defaultYear item base
where
  /-- The `dates` grouping branch and the `days`/`day` + defaults
  fallback. -/
  expandDatesNoDate (defaultWeek defaultYear : Option Int) (item base : AIItem) :
      List AIItem :=
    let grouped :=
      match item.dates with
      | some ds => groupDates ds
      | none => []
    if grouped ≠ [] then
      grouped.map (fun g =>
        { base with days := some (.list g.2), week := some (.int g.1.1),
                    year := some (.int g.1.2) })
    else
      let cds := candidateDays item
      let entry := if cds ≠ [] then { base with days := some (.list cds) } else base
      let weekNum :=
        match coerceInt item.week with
        | some w => some w
        | none => defaultWeek
      let yearNum :=
        match coerceInt item.year with
        | some y => some y
        | none => defaultYear
      let entry :=
        match weekNum with
        | some w => { entry with week := some (.int w) }
        | none => entry
      let entry :=
        match yearNum with
        | some y => { entry with year := some (.int y) }
        | none => entry
      [entry]

/-- `expand_dates_to_week_schema`. -/
def expandDatesToWeekSchema (items : List AIItem)
    (defaultWeek defaultYear : Option Int := none) : List AIItem :=
  items.flatMap (expandDatesItem defaultWeek defaultYear)

/-- A member record as handed to `map_participants_to_ids` (the roster
dicts carry non-null string ids and names, per the schema). -/
structure FmEntry where
  id : String
  name : String
deriving DecidableEq, Repr

/-- The `name_to_id` dict lookup: lowercased stripped name to id; later
roster entries overwrite earlier ones, and falsy (empty) names are
skipped. -/
def nameToId (fm : List FmEntry) (key : String) : Option String :=
  ((fm.filter (fun m => m.name ≠ "")).reverse.find?
    (fun m => pyLower (pyStrip m.name) = key)).map (·.id)

/-- The participant loop of `map_participants_to_ids` for one reference
list: returns `(mapped, unknowns)`. Empty references are skipped; id
matches and name matches are deduplicated in first-appearance order. -/
def mapRefs (fm : List FmEntry) (refs : List String) :
    List String × List String :=
  refs.foldl
    (fun acc p =>
      let identifier := pyStrip p
      if identifier = "" then acc
      else if fm.any (fun m => m.id = identifier) then
        (if acc.1.contains identifier then acc.1 else acc.1 ++ [identifier],
         acc.2)
      else
        match nameToId fm (pyLower identifier) with
        | some nid =>
          if nid ≠ "" then
            (if acc.1.contains nid then acc.1 else acc.1 ++ [nid], acc.2)
          else (acc.1, acc.2 ++ [identifier])
        | none => (acc.1, acc.2 ++ [identifier]))
    ([], [])

/-- `map_participants_to_ids`; `strict` is the `STRICT_UNKNOWN` module
flag (env `AI_PARSE_STRICT_UNKNOWN_PARTICIPANTS`). The raised
`ValueError` is the `.error` case. -/
def mapParticipantsToIds (strict : Bool) (items : List AIItem)
    (fm : List FmEntry) : Except String (List AIItem) :=
  mapExcept (fun item =>
    let r := mapRefs fm (item.participants.getD [])
    if strict ∧ r.2 ≠ [] then
      .error ("Unknown participants: " ++ String.intercalate ", " r.2)
    else
      .ok { item with participants := some r.1 }) items

/-- `ensure_required_fields` for one item. -/
def ensureRequiredItem (item : AIItem) : Option AIItem := do
  let name ← item.name
  let startTime ← item.startTime
  let endTime ← item.endTime
  let participants ← item.participants
  let daysField ← item.days
  let week ← coerceInt item.week
  let year ← coerceInt item.year
  if pyStrip name = "" then none
  else
    match daysField with
    | .str _ => none
    | .list days =>
      if days = [] then none
      else
        let normalizedDays :=
          days.foldl (fun acc d =>
            match normalizeDayLabel d with
            | some n => if acc.contains n then acc else acc ++ [n]
            | none => acc) []
        if normalizedDays = [] then none
        else
          some { item with
            name := some (pyStrip name)
            startTime := some (pyStrip startTime)
            endTime := some (pyStrip endTime)
            participants := some participants
            days := some (.list normalizedDays)
            week := some (.int week)
            year := some (.int year) }

/-- `ensure_required_fields`: keep only the complete, well-formed items,
normalized. -/
def ensureRequiredFields (items : List AIItem) : List AIItem :=
  items.filterMap ensureRequiredItem

/-- `normalize_and_align`. -/
def normalizeAndAlign (strict : Bool) (items : List AIItem)
    (fm : List FmEntry) (defaultWeek defaultYear : Option Int := none) :
    Except String (List AIItem) :=
  (mapParticipantsToIds strict
    (expandDatesToWeekSchema items defaultWeek defaultYear) fm).map
    ensureRequiredFields

/-! ## Conflict condition (spec §4.5)

Modelled from the spec: the repository's final code contains no conflict
detector (`detectConflicts` exists nowhere under `src/`), so the conflict
condition used to *state* the conflict claims is taken from the spec's
words. -/

/-- Modelled from the spec: `rangesOverlap(startA, endA, startB, endB)` —
`max(startA, startB) < min(endA, endB)` (spec §4.1). -/
def rangesOverlap (startA endA startB endB : Int) : Bool :=
  max startA startB < min endA endB

/-- Minutes since midnight of an `HH:MM` column value (spec §4.1
`minutesSinceMidnight`). -/
def minutesSinceMidnight (s : String) : Int :=
  match parseTimeHhmm s with
  | .ok t => toMinutes t
  | .error _ => 0

/-- Modelled from the spec (§4.5): a new instance descriptor conflicts
with a stored instance when they agree on (year, week, day), share at
least one participant, and overlap in time. -/
def conflictsWith (inst : Inst) (a : StoredActivity) : Bool :=
  a.year = inst.year ∧ a.week = inst.week ∧ a.day = inst.day ∧
  inst.participants.any (fun p => a.participants.contains p) ∧
  rangesOverlap (minutesSinceMidnight inst.startTime)
    (minutesSinceMidnight inst.endTime)
    (minutesSinceMidnight a.startTime)
    (minutesSinceMidnight a.endTime)

/-! ## Spec-side predicates used to state the claims -/

/-- A string of the exact form `HH:MM` with a two-digit hour in [0,23]
and a two-digit minute in [0,59]: precisely the image of the zero-padded
`HH:MM` formatter on in-range pairs. -/
def validHHMM (s : String) : Prop :=
  ∃ h m : Nat, h < 24 ∧ m < 60 ∧ s = timeToStr ((h : Int), (m : Int))

/-- First-occurrence deduplication continuing from an accumulator. -/
def dedupFrom (acc l : List String) : List String :=
  l.foldl (fun acc x => if acc.contains x then acc else acc ++ [x]) acc

/-- First-occurrence deduplication (the order the participant loop
produces). -/
def firstDedup (l : List String) : List String :=
  dedupFrom [] l

/-- Declarative resolution of a single participant reference against a
roster: an id match wins, else a case-insensitive name match (to a
non-empty id); empty references resolve to nothing. -/
def resolvesTo (fm : List FmEntry) (r : String) : Option String :=
  let idf := pyStrip r
  if idf = "" then none
  else if fm.any (fun m => m.id = idf) then some idf
  else
    match nameToId fm (pyLower idf) with
    | some nid => if nid = "" then none else some nid
    | none => none

/-- A reference is unknown when it is non-empty yet resolves to nothing. -/
def isUnknownRef (fm : List FmEntry) (r : String) : Bool :=
  pyStrip r ≠ "" && (resolvesTo fm r).isNone

/-- The (stripped) unknown references of a list, in order. -/
def unknownRefs (fm : List FmEntry) (refs : List String) : List String :=
  refs.filterMap (fun r => if isUnknownRef fm r then some (pyStrip r) else none)

/-- The "start date" of a recurring rule per the spec / the validator:
the earliest requested-weekday date in the starting week. -/
def recStartDate (v : ValidatedActivity) (startMonday : Int) : Int :=
  (((v.days.filterMap (fun day => svToNum (pyLower day))).map
    (fun n => startMonday + n - 1)).min?).getD startMonday

/-! ## Concrete fixtures for the scenario claims -/

/-- The spec's recurring scenario payload (§8): days = the Monday label,
week 1, year 2024, `recurringEndDate` 2024-01-15 — with the weekday in
the canonical Swedish form `_norm_day` accepts. -/
def recurringPayload : RawActivity :=
  { name := some "Träning"
    startTime := some "16:00"
    endTime := some "17:00"
    days := some [.str "Måndag"]
    week := some 1
    year := some 2024
    recurringEndDate := some "2024-01-15" }

/-- The normalized form the validator produces for `recurringPayload`,
except with `recurringEndDate` kept as the raw string (the value
`_expand_instances` was written to consume). -/
def recurringValidated : ValidatedActivity :=
  { name := "Träning"
    startTime := "16:00"
    endTime := "17:00"
    seriesId := "sid"
    days := ["Måndag"]
    week := 1
    year := 2024
    recurringEndDate := some (.str "2024-01-15") }

/-- Stored instance of the spec's conflict scenario: Friday, week 40,
2025, 16:00–17:00, participant "1". -/
def existingFriday : StoredActivity :=
  { id := "a0"
    userId := "u1"
    seriesId := "s0"
    name := "Existing"
    day := "Fredag"
    week := 40
    year := 2025
    startTime := "16:00"
    endTime := "17:00"
    participants := ["1"] }

/-- State holding user u1's roster member "1" and `existingFriday`. -/
def dbConflict : Db :=
  { members := [{ id := "1", userId := "u1", name := "Alice" }]
    activities := [existingFriday] }

/-- The overlapping submission of the conflict scenario: same user, same
participant, same (year 2025, week 40, Friday), 16:30–17:30. -/
def rawOverlap : RawActivity :=
  { name := some "Football"
    startTime := some "16:30"
    endTime := some "17:30"
    participants := some ["1"]
    day := some (.str "Fredag")
    week := some 40
    year := some 2025 }

/-- The single instance `rawOverlap` expands to. -/
def overlapInst : Inst :=
  { name := "Football"
    startTime := "16:30"
    endTime := "17:30"
    participants := ["1"]
    seriesId := "s1"
    day := "Fredag"
    week := 40
    year := 2025 }

/-- The activity row `create_activity` persists for `rawOverlap`. -/
def overlapStored : StoredActivity :=
  { id := "b0"
    userId := "u1"
    seriesId := "s1"
    name := "Football"
    day := "Fredag"
    week := 40
    year := 2025
    startTime := "16:30"
    endTime := "17:30"
    participants := ["1"] }

/-- Two users' rosters: member "mA" belongs to user alice, member "mB"
to user bob. -/
def dbTwoUsers : Db :=
  { members :=
      [{ id := "mA", userId := "alice", name := "Anna" },
       { id := "mB", userId := "bob", name := "Berit" }]
    activities := [] }

/-- Submission by alice referencing bob's member id. -/
def rawForeign : RawActivity :=
  { name := some "Chess"
    startTime := some "10:00"
    endTime := some "11:00"
    participants := some ["mB"]
    day := some (.str "Måndag")
    week := some 2
    year := some 2025 }

/-- The row created for `rawForeign`: bob's member "mB" is attached to
alice's activity. -/
def foreignStored : StoredActivity :=
  { id := "b0"
    userId := "alice"
    seriesId := "s1"
    name := "Chess"
    day := "Måndag"
    week := 2
    year := 2025
    startTime := "10:00"
    endTime := "11:00"
    participants := ["mB"] }

/-- The Football single-date AI item of the spec scenario (§8). -/
def footballItem : AIItem :=
  { name := some "Football"
    startTime := some "16:00"
    endTime := some "17:30"
    participants := some ["Alice"]
    date := some "2025-10-03" }

/-- Roster for the Football scenario. -/
def footballRoster : List FmEntry :=
  [{ id := "1", name := "Alice" }]

/-- A series-update fixture: two activities of series "se" owned by u1
and one unrelated activity. -/
def dbSeries : Db :=
  { members := [{ id := "1", userId := "u1", name := "Alice" }]
    activities :=
      [{ id := "x1", userId := "u1", seriesId := "se", name := "A",
         day := "Måndag", week := 3, year := 2025,
         startTime := "08:00", endTime := "09:00" },
       { id := "x2", userId := "u1", seriesId := "se", name := "A",
         day := "Tisdag", week := 3, year := 2025,
         startTime := "08:00", endTime := "09:00" },
       { id := "y1", userId := "u1", seriesId := "other", name := "B",
         day := "Onsdag", week := 3, year := 2025,
         startTime := "10:00", endTime := "11:00" }] }

/-- A series-wide update that also (vainly) supplies day/week/year. -/
def seriesReq : SeriesUpdate :=
  { name := some "Renamed"
    startTime := some "12:00"
    day := some (.str "Fredag")
    week := some 50
    year := some 2030 }

/-- Deterministic id suppliers standing in for `str(uuid.uuid4())`. -/
def bIds : Nat → String := fun i => "b" ++ toString i

def sIds : Nat → String := fun _ => "s1"

end DriveC

deriving instance DecidableEq for Except

section CalendarChecks

open DriveC

example : rdOfDate 1 1 1 = 1 := by decide
example : isoWeekday (rdOfDate 2025 10 3) = 5 := by decide
example : isoWeekYear (rdOfDate 2025 10 3) = (2025, 40) := by decide
example : dateOfRd (rdOfDate 2024 1 1) = (2024, 1, 1) := by decide
example : isoWeekday (rdOfDate 2024 1 1) = 1 := by decide
example : isoWeekYear (rdOfDate 2024 1 1) = (2024, 1) := by decide
example : isoWeekYear (rdOfDate 2024 1 15) = (2024, 3) := by decide
example : fromIsoCalendar 2024 1 1 = .ok (rdOfDate 2024 1 1) := by rfl
example : fromIsoCalendar 2025 40 5 = .ok (rdOfDate 2025 10 3) := by rfl
example : isoWeekYear (rdOfDate 2021 1 1) = (2020, 53) := by decide
example : dateOfRd (rdOfDate 2000 2 29) = (2000, 2, 29) := by decide

example : parseTimeHhmm "16:00" = .ok (16, 0) := rfl
example : parseTimeHhmm "9:30" = .ok (9, 30) := rfl
example : parseTimeHhmm "24:00" = .error "Time must be 'HH:MM' in 24h range" := rfl
example : parseTimeHhmm "1600" = .error "Time must be 'HH:MM'" := rfl
example : parseTimeHhmm "" = .error "Time must be 'HH:MM'" := rfl
example : timeToStr (16, 0) = "16:00" := by decide
example : timeToStr (9, 5) = "09:05" := by decide
example : pyInt? " 9" = some 9 := by decide
example : pyInt? "1_2" = some 12 := by decide
example : pyInt? "1__2" = none := by decide
example : pyInt? "-03" = some (-3) := by decide
example : pyInt? "" = none := by decide
example : normDay (.str "Fredag") = .ok "Fredag" := rfl
example : normDay (.str " måndag ") = .ok "Måndag" := rfl
example : normDay (.int 5) = .ok "Fredag" := rfl
example : normDay (.str "5") = .ok "Fredag" := rfl
example : normDay (.str "8") = .error "day must be a Swedish weekday name or 1..7" := rfl
example : normDay (.str "Monday") = .error "day must be a Swedish weekday name or 1..7" := rfl

end CalendarChecks

namespace DriveC

/-! ## Claim theorems -/

/-- C1 (counterexample). The claim says a create/import submission whose
instance shares a participant and the same (year, week, day) with a
stored, time-overlapping instance of the same user is rejected with a
`ConflictDetected` error and nothing is persisted. On the spec's own
scenario (stored Friday/week 40/2025 16:00–17:00 and submitted
16:30–17:30, both with participant "1") the instance does conflict per
the spec's condition, yet both `create_activity` and
`add_activities_from_json` answer 201 and persist it: the final code has
no conflict detection. -/
theorem create_rejects_conflicting_batch_counterexample :
    conflictsWith overlapInst existingFriday = true
    ∧ (validateActivityPayload rawOverlap "s1").bind expandInstances
        = .ok [overlapInst]
    ∧ createActivity dbConflict "u1" rawOverlap "s1" bIds
        = (.ok 201,
           { members := dbConflict.members
             activities := [existingFriday, overlapStored] })
    ∧ addActivitiesFromJson dbConflict "u1" [rawOverlap] sIds bIds
        = (.ok 201,
           { members := dbConflict.members
             activities := [existingFriday, overlapStored] }) :=
  ⟨rfl, rfl, rfl, rfl⟩

/-- C1 (amended). The create/import operations perform no conflict
check: whenever validation and expansion of the submission succeed, the
whole batch is persisted and a 201 success returned, for every prior
state — in particular also when the new instances conflict (shared
participant, same (year, week, day), overlapping time) with stored
instances. -/
theorem create_persists_batch_without_conflict_check :
    (∀ (st : Db) (uid : String) (raw : RawActivity) (fresh : String)
        (ids : Nat → String) (insts : List Inst),
      (validateActivityPayload raw fresh).bind expandInstances = .ok insts →
      createActivity st uid raw fresh ids =
        (.ok 201,
         { st with activities := (st.activities ++
             insts.enum.map (fun p => instToStored uid (ids p.1) st.members p.2)) }))
    ∧ (∀ (st : Db) (uid : String) (raws : List RawActivity)
        (fs ids : Nat → String) (insts : List Inst),
      raws ≠ [] →
      collectInstances raws fs = .ok insts →
      addActivitiesFromJson st uid raws fs ids =
        (.ok 201,
         { st with activities := (st.activities ++
             insts.enum.map (fun p => instToStored uid (ids p.1) st.members p.2)) })) := by
  constructor
  · intro st uid raw fresh ids insts h
    unfold createActivity
    rw [h]
  · intro st uid raws fs ids insts hne h
    unfold addActivitiesFromJson
    rw [if_neg hne, h]

/-- C1 (witness): the amended theorem applied to the conflict scenario. -/
theorem create_persists_batch_without_conflict_check_witness :
    ((validateActivityPayload rawOverlap "s1").bind expandInstances
        = .ok [overlapInst]
      ∧ createActivity dbConflict "u1" rawOverlap "s1" bIds =
          (.ok 201,
           { dbConflict with activities := (dbConflict.activities ++
               [overlapInst].enum.map
                 (fun p => instToStored "u1" (bIds p.1) dbConflict.members p.2)) }))
    ∧ (([rawOverlap] : List RawActivity) ≠ []
      ∧ collectInstances [rawOverlap] sIds = .ok [overlapInst]
      ∧ addActivitiesFromJson dbConflict "u1" [rawOverlap] sIds bIds =
          (.ok 201,
           { dbConflict with activities := (dbConflict.activities ++
               [overlapInst].enum.map
                 (fun p => instToStored "u1" (bIds p.1) dbConflict.members p.2)) })) :=
  ⟨⟨rfl, create_persists_batch_without_conflict_check.1 dbConflict "u1" rawOverlap
      "s1" bIds [overlapInst] rfl⟩,
   ⟨by simp, rfl, create_persists_batch_without_conflict_check.2 dbConflict "u1"
      [rawOverlap] sIds bIds [overlapInst] (by simp) rfl⟩⟩

/-- C2 (code bug). The spec's recurring scenario (days = Monday, week 1,
year 2024, recurringEndDate 2024-01-15) should validate and expand to 3
Monday instances dated 2024-01-01/08/15 (ISO weeks 1, 2, 3 of 2024). The
code fails twice: (1) `_norm_day` accepts only Swedish weekday labels, so
the literal payload is rejected; (2) even with the canonical label
"Måndag", the validator stores `recurringEndDate` as a parsed
`datetime.date` while `_expand_instances` re-parses it with
`datetime.strptime`, which raises `TypeError` — uncaught in
`create_activity`. Handed the raw string instead, the expander does
produce exactly the three intended instances. -/
theorem recurring_scenario_crashes_on_validated_payload :
    validateActivityPayload { recurringPayload with days := some [.str "Monday"] } "sid"
        = .error (.valueError "day must be a Swedish weekday name or 1..7")
    ∧ (validateActivityPayload recurringPayload "sid").bind expandInstances
        = .error (.typeError "strptime() argument 1 must be str, not datetime.date")
    ∧ createActivity ({ } : Db) "u1" recurringPayload "sid" bIds
        = (.exn (.typeError "strptime() argument 1 must be str, not datetime.date"),
           ({ } : Db))
    ∧ expandInstances recurringValidated
        = .ok [mkInst recurringValidated "Måndag" 1 2024,
               mkInst recurringValidated "Måndag" 2 2024,
               mkInst recurringValidated "Måndag" 3 2024]
    ∧ parseYMD "2024-01-15" = some (rdOfDate 2024 1 15)
    ∧ isoWeekday (rdOfDate 2024 1 1) = 1
    ∧ isoWeekYear (rdOfDate 2024 1 1) = (2024, 1)
    ∧ isoWeekYear (rdOfDate 2024 1 8) = (2024, 2)
    ∧ isoWeekYear (rdOfDate 2024 1 15) = (2024, 3) :=
  ⟨rfl, rfl, rfl, rfl, rfl, rfl, rfl, rfl, rfl⟩

/-- C4 (code bug). The participant lookup of the create/import routes
(`FamilyMember.query.filter(FamilyMember.id.in_(participant_ids))`) is
not scoped to the requesting user, so alice's submission naming bob's
member id "mB" is persisted with bob's member attached — contradicting
the user-scoped resolution the routes' own (dead) `by_id` map and the
spec's Participant Resolver prescribe. -/
theorem created_instance_can_attach_foreign_member :
    createActivity dbTwoUsers "alice" rawForeign "s1" bIds
        = (.ok 201, { members := dbTwoUsers.members
                      activities := [foreignStored] })
    ∧ foreignStored.userId = "alice"
    ∧ foreignStored.participants = ["mB"]
    ∧ (dbTwoUsers.members.filter (fun m => m.id = "mB")).map (fun m => m.userId)
        = ["bob"] :=
  ⟨rfl, rfl, rfl, rfl⟩

end DriveC

namespace DriveC

/-- C5. The JSON import is all-or-nothing: the whole batch is validated
and expanded before anything is written, so a validation/expansion
failure anywhere in the batch yields an error response with the store
unchanged, and a fully valid batch persists every expanded instance. -/
theorem import_batch_is_all_or_nothing
    (st : Db) (uid : String) (raws : List RawActivity) (fs ids : Nat → String) :
    (∀ e, collectInstances raws fs = .error e →
      (addActivitiesFromJson st uid raws fs ids).2 = st ∧
      ∃ msg code, (addActivitiesFromJson st uid raws fs ids).1 = .err msg code)
    ∧ (∀ insts, collectInstances raws fs = .ok insts → raws ≠ [] →
      addActivitiesFromJson st uid raws fs ids =
        (.ok 201, { st with activities := (st.activities ++
           insts.enum.map (fun p => instToStored uid (ids p.1) st.members p.2)) })) := by
  constructor
  · intro e h
    by_cases hr : raws = []
    · subst hr
      exact absurd h (by simp [collectInstances, mapExcept, Except.map])
    · unfold addActivitiesFromJson
      rw [if_neg hr, h]
      cases e with
      | valueError m => exact ⟨rfl, m, 400, rfl⟩
      | typeError m => exact ⟨rfl, "Failed to add activities", 500, rfl⟩
      | keyError m => exact ⟨rfl, "Failed to add activities", 500, rfl⟩
  · intro insts h hne
    unfold addActivitiesFromJson
    rw [if_neg hne, h]

/-- C5 (witness): a batch whose second activity is invalid is rejected
with the state untouched; the singleton valid batch is persisted. -/
theorem import_batch_is_all_or_nothing_witness :
    (collectInstances [rawOverlap, ({ } : RawActivity)] sIds
        = .error (.valueError "name is required")
      ∧ (addActivitiesFromJson dbConflict "u1" [rawOverlap, ({ } : RawActivity)]
          sIds bIds).2 = dbConflict
      ∧ ∃ msg code,
          (addActivitiesFromJson dbConflict "u1" [rawOverlap, ({ } : RawActivity)]
            sIds bIds).1 = .err msg code)
    ∧ (collectInstances [rawOverlap] sIds = .ok [overlapInst]
      ∧ addActivitiesFromJson dbConflict "u1" [rawOverlap] sIds bIds =
          (.ok 201, { dbConflict with activities := (dbConflict.activities ++
             [overlapInst].enum.map
               (fun p => instToStored "u1" (bIds p.1) dbConflict.members p.2)) })) :=
  ⟨⟨rfl,
    ((import_batch_is_all_or_nothing dbConflict "u1"
        [rawOverlap, ({ } : RawActivity)] sIds bIds).1
      (.valueError "name is required") rfl).1,
    ((import_batch_is_all_or_nothing dbConflict "u1"
        [rawOverlap, ({ } : RawActivity)] sIds bIds).1
      (.valueError "name is required") rfl).2⟩,
   ⟨rfl,
    (import_batch_is_all_or_nothing dbConflict "u1" [rawOverlap] sIds bIds).2
      [overlapInst] rfl (by simp)⟩⟩

end DriveC

namespace DriveC

theorem exbind_ok {ε α β : Type} (x : α) (f : α → Except ε β) :
    (Except.ok x >>= f) = f x := rfl

theorem exbind_err {ε α β : Type} (e : ε) (f : α → Except ε β) :
    ((Except.error e : Except ε α) >>= f) = Except.error e := rfl

theorem exmapError_ok {ε ι α : Type} (f : ε → ι) (x : α) :
    (Except.ok x : Except ε α).mapError f = Except.ok x := rfl

theorem exmapError_err {ε ι α : Type} (f : ε → ι) (e : ε) :
    (Except.error e : Except ε α).mapError f = Except.error (f e) := rfl

theorem applyStart_frame (u : SeriesUpdate) (a r : StoredActivity)
    (h : applyStart u a = .ok r) :
    r.id = a.id ∧ r.day = a.day ∧ r.week = a.week ∧ r.year = a.year := by
  unfold applyStart at h
  cases hst : u.startTime with
  | none =>
    rw [hst] at h
    injection h with h
    subst h
    exact ⟨rfl, rfl, rfl, rfl⟩
  | some s =>
    rw [hst] at h
    dsimp only at h
    cases hp : parseTimeHhmm s with
    | error e =>
      rw [hp, exmapError_err, exbind_err] at h
      cases h
    | ok t =>
      rw [hp, exmapError_ok, exbind_ok] at h
      injection h with h
      subst h
      exact ⟨rfl, rfl, rfl, rfl⟩

theorem applyEnd_frame (u : SeriesUpdate) (a r : StoredActivity)
    (h : applyEnd u a = .ok r) :
    r.id = a.id ∧ r.day = a.day ∧ r.week = a.week ∧ r.year = a.year := by
  unfold applyEnd at h
  cases hst : u.endTime with
  | none =>
    rw [hst] at h
    injection h with h
    subst h
    exact ⟨rfl, rfl, rfl, rfl⟩
  | some s =>
    rw [hst] at h
    dsimp only at h
    cases hp : parseTimeHhmm s with
    | error e =>
      rw [hp, exmapError_err, exbind_err] at h
      cases h
    | ok t =>
      rw [hp, exmapError_ok, exbind_ok] at h
      injection h with h
      subst h
      exact ⟨rfl, rfl, rfl, rfl⟩

theorem applyParticipants_frame (members : List Member) (userId : String)
    (u : SeriesUpdate) (a : StoredActivity) :
    (applyParticipants members userId u a).id = a.id
    ∧ (applyParticipants members userId u a).day = a.day
    ∧ (applyParticipants members userId u a).week = a.week
    ∧ (applyParticipants members userId u a).year = a.year := by
  unfold applyParticipants
  cases u.participants <;> simp

theorem applyName_frame (u : SeriesUpdate) (a : StoredActivity) :
    (applyName u a).id = a.id ∧ (applyName u a).day = a.day
    ∧ (applyName u a).week = a.week ∧ (applyName u a).year = a.year := by
  unfold applyName
  cases u.name <;> simp

theorem applyIcon_frame (u : SeriesUpdate) (a : StoredActivity) :
    (applyIcon u a).id = a.id ∧ (applyIcon u a).day = a.day
    ∧ (applyIcon u a).week = a.week ∧ (applyIcon u a).year = a.year := by
  unfold applyIcon
  cases u.icon <;> simp

theorem applyLocation_frame (u : SeriesUpdate) (a : StoredActivity) :
    (applyLocation u a).id = a.id ∧ (applyLocation u a).day = a.day
    ∧ (applyLocation u a).week = a.week ∧ (applyLocation u a).year = a.year := by
  unfold applyLocation
  cases u.location <;> simp

theorem applyNotes_frame (u : SeriesUpdate) (a : StoredActivity) :
    (applyNotes u a).id = a.id ∧ (applyNotes u a).day = a.day
    ∧ (applyNotes u a).week = a.week ∧ (applyNotes u a).year = a.year := by
  unfold applyNotes
  cases u.notes <;> simp

theorem applyColor_frame (u : SeriesUpdate) (a : StoredActivity) :
    (applyColor u a).id = a.id ∧ (applyColor u a).day = a.day
    ∧ (applyColor u a).week = a.week ∧ (applyColor u a).year = a.year := by
  unfold applyColor
  cases u.color <;> simp

theorem pureSteps_frame (members : List Member) (userId : String)
    (u : SeriesUpdate) (a : StoredActivity) :
    let b := applyColor u (applyNotes u (applyLocation u (applyIcon u
      (applyName u (applyParticipants members userId u a)))))
    b.id = a.id ∧ b.day = a.day ∧ b.week = a.week ∧ b.year = a.year := by
  intro b
  obtain ⟨i1, d1, w1, y1⟩ := applyParticipants_frame members userId u a
  obtain ⟨i2, d2, w2, y2⟩ := applyName_frame u (applyParticipants members userId u a)
  obtain ⟨i3, d3, w3, y3⟩ :=
    applyIcon_frame u (applyName u (applyParticipants members userId u a))
  obtain ⟨i4, d4, w4, y4⟩ :=
    applyLocation_frame u (applyIcon u (applyName u (applyParticipants members userId u a)))
  obtain ⟨i5, d5, w5, y5⟩ :=
    applyNotes_frame u (applyLocation u (applyIcon u (applyName u
      (applyParticipants members userId u a))))
  obtain ⟨i6, d6, w6, y6⟩ :=
    applyColor_frame u (applyNotes u (applyLocation u (applyIcon u (applyName u
      (applyParticipants members userId u a)))))
  exact ⟨i6.trans (i5.trans (i4.trans (i3.trans (i2.trans i1)))),
         d6.trans (d5.trans (d4.trans (d3.trans (d2.trans d1)))),
         w6.trans (w5.trans (w4.trans (w3.trans (w2.trans w1)))),
         y6.trans (y5.trans (y4.trans (y3.trans (y2.trans y1))))⟩

theorem applySeriesUpdate_frame (members : List Member) (userId : String)
    (u : SeriesUpdate) (a r : StoredActivity)
    (h : applySeriesUpdate members userId u a = .ok r) :
    r.id = a.id ∧ r.day = a.day ∧ r.week = a.week ∧ r.year = a.year := by
  unfold applySeriesUpdate at h
  cases h1 : applyStart u a with
  | error e => rw [h1, exbind_err] at h; cases h
  | ok a1 =>
    rw [h1, exbind_ok] at h
    cases h2 : applyEnd u a1 with
    | error e => rw [h2, exbind_err] at h; cases h
    | ok a2 =>
      rw [h2, exbind_ok] at h
      injection h with h
      obtain ⟨i1, d1, w1, y1⟩ := applyStart_frame u a a1 h1
      obtain ⟨i2, d2, w2, y2⟩ := applyEnd_frame u a1 a2 h2
      obtain ⟨i3, d3, w3, y3⟩ := pureSteps_frame members userId u a2
      subst h
      exact ⟨i3.trans (i2.trans i1), d3.trans (d2.trans d1),
             w3.trans (w2.trans w1), y3.trans (y2.trans y1)⟩

end DriveC

namespace DriveC

/-- C10. A series-wide update touches only the allowed fields: however
the request is shaped (even if it supplies `day`, `week` or `year`), the
resulting store is a per-row image of the old one in which every row
keeps its id, day, week and year, and rows outside the (user, series)
pair are returned unchanged. -/
theorem series_update_preserves_day_week_year
    (st : Db) (uid sid : String) (u : SeriesUpdate) :
    ∃ f : StoredActivity → StoredActivity,
      ((updateActivitySeries st uid sid u).2).activities = st.activities.map f
      ∧ (∀ a, (f a).id = a.id ∧ (f a).day = a.day ∧ (f a).week = a.week
          ∧ (f a).year = a.year)
      ∧ (∀ a, inSeries uid sid a = false → f a = a) := by
  unfold updateActivitySeries
  by_cases hacts : st.activities.filter (inSeries uid sid) = []
  · rw [if_pos hacts]
    exact ⟨id, by simp, fun a => ⟨rfl, rfl, rfl, rfl⟩, fun a _ => rfl⟩
  · rw [if_neg hacts]
    cases hm : mapExcept (applySeriesUpdate st.members uid u)
        (st.activities.filter (inSeries uid sid)) with
    | error e =>
      exact ⟨id, by simp, fun a => ⟨rfl, rfl, rfl, rfl⟩, fun a _ => rfl⟩
    | ok rs =>
      refine ⟨fun a => if inSeries uid sid a then
          (applySeriesUpdate st.members uid u a).toOption.getD a else a,
        rfl, ?_, ?_⟩
      · intro a
        cases hin : inSeries uid sid a with
        | true =>
          simp only [hin, if_true]
          cases hap : applySeriesUpdate st.members uid u a with
          | error e => simp [Except.toOption]
          | ok r =>
            obtain ⟨hi, hd, hw, hy⟩ := applySeriesUpdate_frame st.members uid u a r hap
            simp [Except.toOption, hi, hd, hw, hy]
        | false =>
          simp [hin]
      · intro a ha
        simp only [ha, Bool.false_eq_true, if_false]

/-- C10 (witness): the theorem at a concrete three-row store, plus the
concrete check that the update leaves every (id, day, week, year)
untouched and the out-of-series row identical while renaming and
re-timing the series rows. -/
theorem series_update_preserves_day_week_year_witness :
    (∃ f : StoredActivity → StoredActivity,
      ((updateActivitySeries dbSeries "u1" "se" seriesReq).2).activities
          = dbSeries.activities.map f
      ∧ (∀ a, (f a).id = a.id ∧ (f a).day = a.day ∧ (f a).week = a.week
          ∧ (f a).year = a.year)
      ∧ (∀ a, inSeries "u1" "se" a = false → f a = a))
    ∧ ((updateActivitySeries dbSeries "u1" "se" seriesReq).2).activities.map
        (fun a => (a.id, a.name, a.day, a.week, a.year, a.startTime))
        = [("x1", "Renamed", "Måndag", 3, 2025, "12:00"),
           ("x2", "Renamed", "Tisdag", 3, 2025, "12:00"),
           ("y1", "B", "Onsdag", 3, 2025, "10:00")] :=
  ⟨series_update_preserves_day_week_year dbSeries "u1" "se" seriesReq, rfl⟩

end DriveC

namespace DriveC

set_option maxRecDepth 4000 in
/-- Parsing inverts formatting on every in-range hour/minute pair. -/
theorem parse_format_roundtrip :
    ∀ h : Nat, h < 24 → ∀ m : Nat, m < 60 →
      parseTimeHhmm (timeToStr ((h : Int), (m : Int))) = .ok ((h : Int), (m : Int)) := by
  decide

/-- `splitChar` produces one more part than there are separators. -/
theorem splitChar_length (sep : Char) :
    ∀ cs : List Char, (splitChar sep cs).length = cs.count sep + 1 := by
  intro cs
  induction cs with
  | nil => rfl
  | cons c rest ih =>
    cases hr : splitChar sep rest with
    | nil => rw [hr] at ih; simp at ih
    | cons g gs =>
      rw [hr] at ih
      simp only [List.length_cons] at ih
      by_cases hc : c = sep
      · simp [splitChar, hr, hc, List.count_cons]
        omega
      · simp [splitChar, hr, hc, List.count_cons]
        omega

/-- C8. On every string of the exact form `HH:MM` (two-digit hour in
[0,23], two-digit minute in [0,59]), `_parse_time_hhmm` followed by
`_time_to_str` returns the identical string. -/
theorem parse_time_roundtrips_through_format (s : String) (hs : validHHMM s) :
    (parseTimeHhmm s).map timeToStr = .ok s := by
  obtain ⟨h, m, hh, hm, rfl⟩ := hs
  rw [parse_format_roundtrip h hh m hm]
  rfl

/-- C8 (witness): the roundtrip at "16:05". -/
theorem parse_time_roundtrips_through_format_witness :
    validHHMM "16:05" ∧ (parseTimeHhmm "16:05").map timeToStr = .ok "16:05" :=
  ⟨⟨16, 5, by decide, by decide, rfl⟩,
   parse_time_roundtrips_through_format "16:05" ⟨16, 5, by decide, by decide, rfl⟩⟩

/-- C9 (counterexample). The claim says `_parse_time_hhmm` succeeds
exactly on two-digit `HH:MM` strings; but it also accepts length-4
strings such as `"9:30"` (a one-digit hour), which matches no `HH:MM`
pattern string. -/
theorem parse_time_accepts_only_pattern_counterexample :
    parseTimeHhmm "9:30" = .ok (9, 30) ∧ ¬ validHHMM "9:30" :=
  ⟨rfl, by
    rintro ⟨h, m, hh, hm, heq⟩
    have hne : ∀ h : Nat, h < 24 → ∀ m : Nat, m < 60 →
        timeToStr ((h : Int), (m : Int)) ≠ "9:30" := by decide
    exact hne h hh m hm heq.symm⟩

/-- C9 (amended). `_parse_time_hhmm` accepts every exact `HH:MM` pattern
string, and every string it accepts has length 4 or 5 with exactly one
`:` and parses to an hour in [0,23] and a minute in [0,59] (every other
string fails with a `ValueError`); the acceptance set is strictly larger
than the `HH:MM` pattern (e.g. one-digit hours). -/
theorem parse_time_acceptance_characterized (s : String) :
    (validHHMM s → ∃ t, parseTimeHhmm s = .ok t)
    ∧ (∀ t, parseTimeHhmm s = .ok t →
        (s.length = 4 ∨ s.length = 5) ∧ s.data.count ':' = 1
        ∧ 0 ≤ t.1 ∧ t.1 ≤ 23 ∧ 0 ≤ t.2 ∧ t.2 ≤ 59) := by
  constructor
  · rintro ⟨h, m, hh, hm, rfl⟩
    exact ⟨_, parse_format_roundtrip h hh m hm⟩
  · intro t h
    unfold parseTimeHhmm at h
    split at h
    · cases h
    · rename_i hlen
      refine ⟨by omega, ?_⟩
      split at h
      · rename_i a b heq
        split at h
        · rename_i hour minute hha hhb
          split at h
          · rename_i hrange
            injection h with h
            subst h
            refine ⟨?_, by omega, by omega, by omega, by omega⟩
            have hc := splitChar_length ':' s.data
            rw [heq] at hc
            simp at hc
            omega
          · cases h
        · cases h
      · cases h

/-- C9 (witness): the completeness half at "23:59", the soundness half
at the accepted non-pattern string "9:30". -/
theorem parse_time_acceptance_characterized_witness :
    (validHHMM "23:59" ∧ ∃ t, parseTimeHhmm "23:59" = .ok t)
    ∧ (parseTimeHhmm "9:30" = .ok (9, 30)
      ∧ ((("9:30" : String).length = 4 ∨ ("9:30" : String).length = 5)
        ∧ ("9:30" : String).data.count ':' = 1
        ∧ 0 ≤ (9 : Int) ∧ (9 : Int) ≤ 23 ∧ 0 ≤ (30 : Int) ∧ (30 : Int) ≤ 59)) :=
  ⟨⟨⟨23, 59, by decide, by decide, rfl⟩,
    (parse_time_acceptance_characterized "23:59").1 ⟨23, 59, by decide, by decide, rfl⟩⟩,
   ⟨rfl, (parse_time_acceptance_characterized "9:30").2 (9, 30) rfl⟩⟩

end DriveC

namespace DriveC

theorem mapExcept_ok_mem {α β : Type} (f : α → Except PyErr β) :
    ∀ (l : List α) (r : List β), mapExcept f l = .ok r → ∀ b ∈ r, ∃ a ∈ l, f a = .ok b := by
  intro l
  induction l with
  | nil =>
    intro r h b hb
    unfold mapExcept at h
    injection h with h
    subst h
    simp at hb
  | cons a l ih =>
    intro r h b hb
    unfold mapExcept at h
    cases hfa : f a with
    | error e => rw [hfa, exbind_err] at h; cases h
    | ok x =>
      rw [hfa, exbind_ok] at h
      cases hml : mapExcept f l with
      | error e => rw [hml, exbind_err] at h; cases h
      | ok xs =>
        rw [hml, exbind_ok] at h
        injection h with h
        subst h
        rcases List.mem_cons.mp hb with hbx | hbxs
        · subst hbx
          exact ⟨a, List.mem_cons_self a l, hfa⟩
        · obtain ⟨a', ha', hfa'⟩ := ih xs hml b hbxs
          exact ⟨a', List.mem_cons_of_mem a ha', hfa'⟩

theorem svToNum_range (s : String) (n : Int) (h : svToNum s = some n) :
    1 ≤ n ∧ n ≤ 7 := by
  unfold svToNum at h
  repeat' split at h
  all_goals first
    | (injection h with h; omega)
    | (injection h)

theorem svToNumE_ok (day : String) (n : Int) (h : svToNumE day = .ok n) :
    svToNum (pyLower day) = some n := by
  unfold svToNumE at h
  split at h
  · injection h with h; subst h; assumption
  · cases h

theorem instForDay_ok_some (v : ValidatedActivity) (endRd monday : Int)
    (day : String) (inst : Inst)
    (h : instForDay v endRd monday day = .ok (some inst)) :
    ∃ n : Int, svToNum (pyLower day) = some n ∧ 1 ≤ n ∧ n ≤ 7
      ∧ monday + n - 1 ≤ endRd
      ∧ inst = mkInst v day (isoWeekYear (monday + n - 1)).2
          (isoWeekYear (monday + n - 1)).1 := by
  unfold instForDay at h
  cases hsv : svToNumE day with
  | error e => rw [hsv, exbind_err] at h; cases h
  | ok n =>
    rw [hsv, exbind_ok] at h
    have hn := svToNumE_ok day n hsv
    dsimp only at h
    split at h
    · injection h with h
      cases h
    · rename_i hle
      injection h with h
      injection h with h
      obtain ⟨h1, h7⟩ := svToNum_range _ _ hn
      exact ⟨n, hn, h1, h7, by omega, h.symm⟩

end DriveC

namespace DriveC

theorem expandRecGo_mem (v : ValidatedActivity) (endRd : Int) :
    ∀ (fuel : Nat) (monday : Int) (insts : List Inst) (inst : Inst),
      expandRecGo v endRd fuel monday = .ok insts → inst ∈ insts →
      ∃ (k : Nat) (n : Int),
        inst.day ∈ v.days ∧ svToNum (pyLower inst.day) = some n
        ∧ 1 ≤ n ∧ n ≤ 7
        ∧ monday ≤ monday + 7 * k
        ∧ monday + 7 * k + n - 1 ≤ endRd
        ∧ inst = mkInst v inst.day (isoWeekYear (monday + 7 * k + n - 1)).2
            (isoWeekYear (monday + 7 * k + n - 1)).1 := by
  intro fuel
  induction fuel with
  | zero =>
    intro monday insts inst h hi
    unfold expandRecGo at h
    injection h with h
    subst h
    simp at hi
  | succ fuel ih =>
    intro monday insts inst h hi
    unfold expandRecGo at h
    split at h
    · injection h with h
      subst h
      simp at hi
    · rename_i hle
      cases hrow : mapExcept (instForDay v endRd monday) v.days with
      | error e => rw [hrow, exbind_err] at h; cases h
      | ok row =>
        rw [hrow, exbind_ok] at h
        cases hrest : expandRecGo v endRd fuel (monday + 7) with
        | error e => rw [hrest, exbind_err] at h; cases h
        | ok rest =>
          rw [hrest, exbind_ok] at h
          injection h with h
          subst h
          rcases List.mem_append.mp hi with hrowmem | hrestmem
          · have hsome : some inst ∈ row := List.reduceOption_mem_iff.mp hrowmem
            obtain ⟨day, hday, hfd⟩ := mapExcept_ok_mem _ v.days row hrow (some inst) hsome
            obtain ⟨n, hn, h1, h7, hdle, hinst⟩ :=
              instForDay_ok_some v endRd monday day inst hfd
            have hdayeq : inst.day = day := by rw [hinst]; rfl
            refine ⟨0, n, ?_, ?_, h1, h7, by omega, by omega, ?_⟩
            · rw [hdayeq]; exact hday
            · rw [hdayeq]; exact hn
            · rw [hdayeq]
              have harg : monday + 7 * ((0 : Nat) : Int) + n - 1 = monday + n - 1 := by
                push_cast
                ring
              rw [harg]
              exact hinst
          · obtain ⟨k, n, hday, hn, h1, h7, hmon, hle2, hinst⟩ :=
              ih (monday + 7) rest inst hrest hrestmem
            refine ⟨k + 1, n, hday, hn, h1, h7, by omega, by omega, ?_⟩
            have harg : monday + 7 * (((k + 1) : Nat) : Int) + n - 1
                = monday + 7 + 7 * (k : Int) + n - 1 := by
              push_cast
              ring
            rw [harg]
            exact hinst

theorem isoWeekday_bounds (rd : Int) : 1 ≤ isoWeekday rd ∧ isoWeekday rd ≤ 7 := by
  unfold isoWeekday
  constructor <;> omega

end DriveC

namespace DriveC

theorem expure {ε α : Type} (x : α) : (pure x : Except ε α) = .ok x := rfl

theorem isoWeekday_shift (m : Int) (hm : isoWeekday m = 1) (k n : Int)
    (h1 : 1 ≤ n) (h7 : n ≤ 7) : isoWeekday (m + 7 * k + n - 1) = n := by
  unfold isoWeekday at *
  omega

theorem isoWeekday_week1Monday_add (y t : Int) :
    isoWeekday (week1Monday y + 7 * t) = 1 := by
  have h : ∀ j : Int, (j - ((j - 1) % 7 + 1 - 1) + 7 * t - 1) % 7 + 1 = 1 := by
    intro j
    omega
  unfold week1Monday isoWeekday
  exact h _

theorem fromIsoCalendar_ok (y w d rd : Int) (h : fromIsoCalendar y w d = .ok rd) :
    rd = week1Monday y + (w - 1) * 7 + (d - 1) ∧ 1 ≤ d ∧ d ≤ 7 := by
  unfold fromIsoCalendar at h
  split at h
  · cases h
  · split at h
    · cases h
    · split at h
      · cases h
      · rename_i hd
        injection h with h
        refine ⟨h.symm, ?_, ?_⟩ <;> omega

theorem recStartDate_le (v : ValidatedActivity) (startMonday n : Int)
    (h : n ∈ v.days.filterMap (fun day => svToNum (pyLower day))) :
    recStartDate v startMonday ≤ startMonday + n - 1 := by
  unfold recStartDate
  have hm : (startMonday + n - 1) ∈
      (v.days.filterMap (fun day => svToNum (pyLower day))).map
        (fun n => startMonday + n - 1) :=
    List.mem_map_of_mem _ h
  cases hmin : ((v.days.filterMap (fun day => svToNum (pyLower day))).map
      (fun n => startMonday + n - 1)).min? with
  | none =>
    rw [List.min?_eq_none_iff] at hmin
    rw [hmin] at hm
    simp at hm
  | some a =>
    simp only [Option.getD_some]
    have anti : Std.Antisymm (fun x1 x2 : Int => x1 ≤ x2) :=
      ⟨fun h1 h2 => le_antisymm h1 h2⟩
    rw [List.min?_eq_some_iff (fun x => le_refl x) (fun x y => min_choice x y)
      (fun x y z => le_min_iff)] at hmin
    exact hmin.2 _ hm

/-- C7. Every instance emitted by the recurring branch of
`_expand_instances` (end date not earlier than the rule's start date)
corresponds to a concrete calendar date that falls on one of the
requested weekdays and lies within [start date, end date]; its
(week, year) are the ISO week/year recomputed for that date. -/
theorem recurring_expansion_stays_in_range
    (v : ValidatedActivity) (es : String) (endRd startMonday : Int)
    (insts : List Inst) (inst : Inst)
    (hre : v.recurringEndDate = some (.str es))
    (hp : parseYMD es = some endRd)
    (hfc : fromIsoCalendar v.year v.week 1 = .ok startMonday)
    (hstart : recStartDate v startMonday ≤ endRd)
    (hex : expandInstances v = .ok insts)
    (hi : inst ∈ insts) :
    inst.day ∈ v.days
    ∧ ∃ d : Int,
        svToNum (pyLower inst.day) = some (isoWeekday d)
        ∧ recStartDate v startMonday ≤ d ∧ d ≤ endRd
        ∧ inst.week = (isoWeekYear d).2 ∧ inst.year = (isoWeekYear d).1 := by
  have hes : es ≠ "" := by
    intro he
    rw [he, show parseYMD "" = none from rfl] at hp
    cases hp
  unfold expandInstances at hex
  rw [hre] at hex
  rw [show recEndTruthy (some (RecEnd.str es)) = true from by
    simp [recEndTruthy, hes]] at hex
  simp only [if_true] at hex
  rw [hfc, exmapError_ok, exbind_ok] at hex
  rw [hp] at hex
  dsimp only at hex
  rw [expure, exbind_ok] at hex
  unfold expandRec at hex
  obtain ⟨k, n, hday, hn, h1, h7, hmon, hle2, hinst⟩ :=
    expandRecGo_mem v endRd _ startMonday insts inst hex hi
  obtain ⟨hsm, _, _⟩ := fromIsoCalendar_ok v.year v.week 1 startMonday hfc
  have hm1 : isoWeekday startMonday = 1 := by
    have hsm7 : startMonday = week1Monday v.year + 7 * (v.week - 1) := by omega
    rw [hsm7]
    exact isoWeekday_week1Monday_add v.year (v.week - 1)
  have hwd : isoWeekday (startMonday + 7 * (k : Int) + n - 1) = n :=
    isoWeekday_shift startMonday hm1 (k : Int) n h1 h7
  have hrs : recStartDate v startMonday ≤ startMonday + n - 1 :=
    recStartDate_le v startMonday n
      (List.mem_filterMap.mpr ⟨inst.day, hday, hn⟩)
  refine ⟨hday, startMonday + 7 * k + n - 1, ?_, by omega, hle2, ?_, ?_⟩
  · rw [hwd]
    exact hn
  · rw [hinst]
    rfl
  · rw [hinst]
    rfl



/-- C7 (witness): the recurring fixture (Mondays of weeks 1-3 of 2024 up
to 2024-01-15), checked on its second emitted instance. -/
theorem recurring_expansion_stays_in_range_witness :
    (recurringValidated.recurringEndDate = some (.str "2024-01-15")
      ∧ parseYMD "2024-01-15" = some 738900
      ∧ fromIsoCalendar recurringValidated.year recurringValidated.week 1
          = .ok 738886
      ∧ recStartDate recurringValidated 738886 ≤ 738900
      ∧ expandInstances recurringValidated
          = .ok [mkInst recurringValidated "Måndag" 1 2024,
                 mkInst recurringValidated "Måndag" 2 2024,
                 mkInst recurringValidated "Måndag" 3 2024]
      ∧ mkInst recurringValidated "Måndag" 2 2024
          ∈ [mkInst recurringValidated "Måndag" 1 2024,
             mkInst recurringValidated "Måndag" 2 2024,
             mkInst recurringValidated "Måndag" 3 2024])
    ∧ ((mkInst recurringValidated "Måndag" 2 2024).day ∈ recurringValidated.days
      ∧ ∃ d : Int,
          svToNum (pyLower (mkInst recurringValidated "Måndag" 2 2024).day)
              = some (isoWeekday d)
          ∧ recStartDate recurringValidated 738886 ≤ d ∧ d ≤ 738900
          ∧ (mkInst recurringValidated "Måndag" 2 2024).week = (isoWeekYear d).2
          ∧ (mkInst recurringValidated "Måndag" 2 2024).year = (isoWeekYear d).1) :=
  ⟨⟨rfl, rfl, rfl, by decide, rfl, by simp⟩,
   recurring_expansion_stays_in_range recurringValidated "2024-01-15" 738900 738886
     [mkInst recurringValidated "Måndag" 1 2024,
      mkInst recurringValidated "Måndag" 2 2024,
      mkInst recurringValidated "Måndag" 3 2024]
     (mkInst recurringValidated "Måndag" 2 2024)
     rfl rfl rfl (by decide) rfl (by simp)⟩

end DriveC

namespace DriveC

theorem unknownRefs_cons (fm : List FmEntry) (r : String) (rest : List String) :
    unknownRefs fm (r :: rest)
      = (if isUnknownRef fm r then [pyStrip r] else []) ++ unknownRefs fm rest := by
  unfold unknownRefs
  rw [List.filterMap_cons]
  by_cases h : isUnknownRef fm r <;> simp [h]

theorem mapRefs_spec (fm : List FmEntry) :
    ∀ (refs : List String) (acc : List String × List String),
      refs.foldl
        (fun acc p =>
          let identifier := pyStrip p
          if identifier = "" then acc
          else if fm.any (fun m => m.id = identifier) then
            (if acc.1.contains identifier then acc.1 else acc.1 ++ [identifier],
             acc.2)
          else
            match nameToId fm (pyLower identifier) with
            | some nid =>
              if nid ≠ "" then
                (if acc.1.contains nid then acc.1 else acc.1 ++ [nid], acc.2)
              else (acc.1, acc.2 ++ [identifier])
            | none => (acc.1, acc.2 ++ [identifier])) acc
        = (dedupFrom acc.1 (refs.filterMap (resolvesTo fm)),
           acc.2 ++ unknownRefs fm refs) := by
  intro refs
  induction refs with
  | nil =>
    intro acc
    simp [dedupFrom, unknownRefs]
  | cons r rest ih =>
    intro acc
    rw [List.foldl_cons, ih]
    by_cases h0 : pyStrip r = ""
    · have hres : resolvesTo fm r = none := by simp [resolvesTo, h0]
      have hunk : isUnknownRef fm r = false := by simp [isUnknownRef, h0]
      rw [List.filterMap_cons, hres, unknownRefs_cons, hunk]
      simp [h0]
    · by_cases hid : fm.any (fun m => m.id = pyStrip r)
      · have hres : resolvesTo fm r = some (pyStrip r) := by
          simp [resolvesTo, h0, hid]
        have hunk : isUnknownRef fm r = false := by
          simp [isUnknownRef, hres]
        rw [List.filterMap_cons, hres, unknownRefs_cons, hunk]
        simp only [h0, if_false, hid, if_true, dedupFrom, List.foldl_cons]
        rfl
      · cases hname : nameToId fm (pyLower (pyStrip r)) with
        | some nid =>
          by_cases hnid : nid = ""
          · have hres : resolvesTo fm r = none := by
              simp [resolvesTo, h0, hid, hname, hnid]
            have hunk : isUnknownRef fm r = true := by
              simp [isUnknownRef, h0, hres]
            rw [List.filterMap_cons, hres, unknownRefs_cons, hunk]
            simp only [h0, if_false, hid, hname, hnid]
            simp
          · have hres : resolvesTo fm r = some nid := by
              simp [resolvesTo, h0, hid, hname, hnid]
            have hunk : isUnknownRef fm r = false := by
              simp [isUnknownRef, hres]
            rw [List.filterMap_cons, hres, unknownRefs_cons, hunk]
            simp only [h0, if_false, hid, hname, hnid]
            simp [dedupFrom, hnid]
        | none =>
          have hres : resolvesTo fm r = none := by
            simp [resolvesTo, h0, hid, hname]
          have hunk : isUnknownRef fm r = true := by
            simp [isUnknownRef, h0, hres]
          rw [List.filterMap_cons, hres, unknownRefs_cons, hunk]
          simp only [h0, if_false, hid, hname]
          simp



/-- The participant loop, characterized: resolved = the deduplicated
resolutions in order, unknowns = the stripped unresolvable references. -/
theorem mapRefs_eq (fm : List FmEntry) (refs : List String) :
    mapRefs fm refs
      = (firstDedup (refs.filterMap (resolvesTo fm)), unknownRefs fm refs) := by
  unfold mapRefs firstDedup
  rw [mapRefs_spec fm refs ([], [])]
  simp

/-- C6. On a reference list with at least one unknown reference, strict
resolution raises `UnknownParticipant` listing exactly the (stripped)
unknown references and yields no resolved output, while lenient
resolution on the same input returns exactly the resolvable references
mapped to member ids (first-occurrence order, deduplicated) and drops
the unknown ones silently. -/
theorem strict_raises_lenient_drops_unknowns
    (fm : List FmEntry) (refs : List String) (item : AIItem)
    (hp : item.participants = some refs)
    (hu : ∃ r ∈ refs, isUnknownRef fm r) :
    mapParticipantsToIds true [item] fm
      = .error ("Unknown participants: "
          ++ String.intercalate ", " (unknownRefs fm refs))
    ∧ mapParticipantsToIds false [item] fm
      = .ok [{ item with
          participants := some (firstDedup (refs.filterMap (resolvesTo fm))) }] := by
  have hne : unknownRefs fm refs ≠ [] := by
    obtain ⟨r, hr, hur⟩ := hu
    intro hemp
    have hmem : pyStrip r ∈ unknownRefs fm refs := by
      unfold unknownRefs
      exact List.mem_filterMap.mpr ⟨r, hr, by rw [if_pos hur]⟩
    rw [hemp] at hmem
    simp at hmem
  constructor
  · show mapExcept _ [item] = _
    unfold mapExcept
    dsimp only
    rw [hp]
    simp only [Option.getD_some]
    rw [mapRefs_eq]
    rw [if_pos ⟨trivial, hne⟩]
    rw [exbind_err]
  · show mapExcept _ [item] = _
    unfold mapExcept
    dsimp only
    rw [hp]
    simp only [Option.getD_some]
    rw [mapRefs_eq]
    rw [if_neg (by rintro ⟨hf, _⟩; cases hf)]
    rfl

/-- C6 (witness): roster [("1", "Rut")], references ["Rut", "Okänd"]:
strict errors naming "Okänd" and lenient returns ["1"]. -/
theorem strict_raises_lenient_drops_unknowns_witness :
    (({ participants := some ["Rut", "Okänd"] } : AIItem).participants
        = some ["Rut", "Okänd"]
      ∧ (∃ r ∈ ["Rut", "Okänd"],
          isUnknownRef [({ id := "1", name := "Rut" } : FmEntry)] r)
      ∧ unknownRefs [({ id := "1", name := "Rut" } : FmEntry)] ["Rut", "Okänd"]
          = ["Okänd"]
      ∧ firstDedup (["Rut", "Okänd"].filterMap
          (resolvesTo [({ id := "1", name := "Rut" } : FmEntry)])) = ["1"])
    ∧ (mapParticipantsToIds true [({ participants := some ["Rut", "Okänd"] } : AIItem)]
          [({ id := "1", name := "Rut" } : FmEntry)]
        = .error ("Unknown participants: " ++ String.intercalate ", "
            (unknownRefs [({ id := "1", name := "Rut" } : FmEntry)] ["Rut", "Okänd"]))
      ∧ mapParticipantsToIds false [({ participants := some ["Rut", "Okänd"] } : AIItem)]
          [({ id := "1", name := "Rut" } : FmEntry)]
        = .ok [{ ({ participants := some ["Rut", "Okänd"] } : AIItem) with
            participants := some (firstDedup (["Rut", "Okänd"].filterMap
              (resolvesTo [({ id := "1", name := "Rut" } : FmEntry)]))) }]) :=
  ⟨⟨rfl, ⟨"Okänd", by simp, by decide⟩, rfl, rfl⟩,
   strict_raises_lenient_drops_unknowns [({ id := "1", name := "Rut" } : FmEntry)]
     ["Rut", "Okänd"] ({ participants := some ["Rut", "Okänd"] } : AIItem)
     rfl ⟨"Okänd", by simp, by decide⟩⟩

end DriveC

namespace DriveC

theorem obind_some {α β : Type} (x : α) (f : α → Option β) :
    (some x >>= f) = f x := rfl

theorem exmap_ok {ε α β : Type} (f : α → β) (x : α) :
    (Except.ok x : Except ε α).map f = .ok (f x) := rfl

theorem normalizeDayLabel_svWeekdays (n : Int) (h1 : 1 ≤ n) (h7 : n ≤ 7) :
    normalizeDayLabel (svWeekdays n) = some (svWeekdays n) := by
  interval_cases n <;> decide

/-- C3. A submission whose temporal specification is a single parseable
explicit ISO date (a `date` field), with a valid name and present time
fields, is accepted by the AI normalization pipeline and expands to
exactly one entry whose weekday label, ISO week and ISO year are derived
from that date (the weekday label in the implementation's canonical
Swedish form, e.g. "Fredag" for Friday). -/
theorem single_date_expands_to_one_instance
    (item : AIItem) (fm : List FmEntry) (ds : String) (rd : Int)
    (nm stv etv : String) (ps : List String)
    (hd : item.date = some ds)
    (hpd : parseIsoDate ds = some rd)
    (hn : item.name = some nm) (hnn : pyStrip nm ≠ "")
    (hst : item.startTime = some stv) (het : item.endTime = some etv)
    (hp : item.participants = some ps)
    (dw dy : Option Int) :
    normalizeAndAlign false [item] fm dw dy
      = .ok [{ aiBase item with
          name := some (pyStrip nm)
          startTime := some (pyStrip stv)
          endTime := some (pyStrip etv)
          participants := some (firstDedup (ps.filterMap (resolvesTo fm)))
          days := some (.list [(dateComponents rd).1])
          week := some (.int (dateComponents rd).2.1)
          year := some (.int (dateComponents rd).2.2) }] := by
  have hds : ds ≠ "" := by
    intro he
    rw [he, show parseIsoDate "" = none from rfl] at hpd
    cases hpd
  obtain ⟨wd1, wd7⟩ := isoWeekday_bounds rd
  have hnorm : normalizeDayLabel (svWeekdays (isoWeekday rd))
      = some (svWeekdays (isoWeekday rd)) :=
    normalizeDayLabel_svWeekdays _ wd1 wd7
  obtain ⟨fn, fst, fet, fps, fdate, fdates, fday, fdays, fweek, fyear,
    fic, floc, fno, fco⟩ := item
  simp only at hd hn hst het hp
  subst hd hn hst het hp
  unfold normalizeAndAlign
  have hexp : expandDatesToWeekSchema
      [({ name := some nm, startTime := some stv, endTime := some etv,
          participants := some ps, date := some ds, dates := fdates,
          day := fday, days := fdays, week := fweek, year := fyear,
          icon := fic, location := floc, notes := fno, color := fco } : AIItem)]
      dw dy
      = [({ name := some nm, startTime := some stv, endTime := some etv,
            participants := some ps,
            days := some (.list [(dateComponents rd).1]),
            week := some (.int (dateComponents rd).2.1),
            year := some (.int (dateComponents rd).2.2),
            icon := fic, location := floc, notes := fno, color := fco } : AIItem)] := by
    unfold expandDatesToWeekSchema
    simp only [List.flatMap_cons, List.flatMap_nil, List.append_nil]
    unfold expandDatesItem
    dsimp only
    rw [if_pos hds, hpd]
    rfl
  rw [hexp]
  have hmap : mapParticipantsToIds false
      [({ name := some nm, startTime := some stv, endTime := some etv,
          participants := some ps,
          days := some (.list [(dateComponents rd).1]),
          week := some (.int (dateComponents rd).2.1),
          year := some (.int (dateComponents rd).2.2),
          icon := fic, location := floc, notes := fno, color := fco } : AIItem)] fm
      = .ok [({
          name := some nm, startTime := some stv, endTime := some etv,
          participants := some (firstDedup (ps.filterMap (resolvesTo fm))),
          days := some (.list [(dateComponents rd).1]),
          week := some (.int (dateComponents rd).2.1),
          year := some (.int (dateComponents rd).2.2),
          icon := fic, location := floc, notes := fno, color := fco } : AIItem)] := by
    unfold mapParticipantsToIds mapExcept
    dsimp only
    rw [mapRefs_eq]
    rfl
  rw [hmap]
  have hnc : normalizeDayLabel ((dateComponents rd).1)
      = some ((dateComponents rd).1) := by
    rw [show (dateComponents rd).1 = svWeekdays (isoWeekday rd) from rfl]
    exact hnorm
  have hens : ensureRequiredFields
      [({
          name := some nm, startTime := some stv, endTime := some etv,
          participants := some (firstDedup (ps.filterMap (resolvesTo fm))),
          days := some (.list [(dateComponents rd).1]),
          week := some (.int (dateComponents rd).2.1),
          year := some (.int (dateComponents rd).2.2),
          icon := fic, location := floc, notes := fno, color := fco } : AIItem)]
      = [({
          name := some (pyStrip nm), startTime := some (pyStrip stv),
          endTime := some (pyStrip etv),
          participants := some (firstDedup (ps.filterMap (resolvesTo fm))),
          days := some (.list [(dateComponents rd).1]),
          week := some (.int (dateComponents rd).2.1),
          year := some (.int (dateComponents rd).2.2),
          icon := fic, location := floc, notes := fno, color := fco } : AIItem)] := by
    unfold ensureRequiredFields ensureRequiredItem
    simp only [List.filterMap_cons, List.filterMap_nil]
    simp only [obind_some, coerceInt]
    simp [hnn, hnc]
  rw [exmap_ok, hens]
  rfl

/-- C3 (witness): the Football scenario — date "2025-10-03" (ordinal
739527), roster [("1", "Alice")] — yields exactly one entry with day
"Fredag", week 40, year 2025 and participants ["1"]. -/
theorem single_date_expands_to_one_instance_witness :
    (footballItem.date = some "2025-10-03"
      ∧ parseIsoDate "2025-10-03" = some 739527
      ∧ footballItem.name = some "Football"
      ∧ pyStrip "Football" ≠ ""
      ∧ footballItem.startTime = some "16:00"
      ∧ footballItem.endTime = some "17:30"
      ∧ footballItem.participants = some ["Alice"])
    ∧ normalizeAndAlign false [footballItem] footballRoster none none
        = .ok [{ aiBase footballItem with
                 name := some (pyStrip "Football")
                 startTime := some (pyStrip "16:00")
                 endTime := some (pyStrip "17:30")
                 participants := some (firstDedup
                   (["Alice"].filterMap (resolvesTo footballRoster)))
                 days := some (.list [(dateComponents 739527).1])
                 week := some (.int (dateComponents 739527).2.1)
                 year := some (.int (dateComponents 739527).2.2) }]
    ∧ (dateComponents 739527 = ("Fredag", 40, 2025)
      ∧ firstDedup (["Alice"].filterMap (resolvesTo footballRoster)) = ["1"]) :=
  ⟨⟨rfl, rfl, rfl, by decide, rfl, rfl, rfl⟩,
   single_date_expands_to_one_instance footballItem footballRoster "2025-10-03"
     739527 "Football" "16:00" "17:30" ["Alice"] rfl rfl rfl (by decide)
     rfl rfl rfl none none,
   ⟨rfl, rfl⟩⟩

end DriveC
